import Mathlib

/-!
Verification development for the OAuth/PKCE authorization and session layer of
the mcp-training repository.

The TypeScript sources are shallowly embedded:
- JS Map objects become association lists over string keys, with
  lookup / setKey / deleteKey mirroring get / set / delete;
- wall-clock instants (new Date(), Date.now()) become a Nat parameter
  now (milliseconds since epoch);
- JS undefined and property absence become Option;
- external sources of randomness (crypto.randomBytes, crypto.randomUUID)
  and the SHA-256 primitive become explicit parameters of the embedded
  functions.
-/

set_option autoImplicit false

namespace McpTraining

/-! Model of a JS Map with string keys. -/

/-- Lookup, mirroring JS map.get(k): first binding for k, or undefined. -/
def lookup {α : Type} : List (String × α) → String → Option α
  | [], _ => none
  | (k', v) :: rest, k => if k' = k then some v else lookup rest k

/-- Update, mirroring JS map.set(k, v): replace the binding for k, or append it. -/
def setKey {α : Type} : List (String × α) → String → α → List (String × α)
  | [], k, v => [(k, v)]
  | (k', v') :: rest, k, v =>
      if k' = k then (k, v) :: rest else (k', v') :: setKey rest k v

/-- Deletion, mirroring JS map.delete(k): remove every binding for k. -/
def deleteKey {α : Type} : List (String × α) → String → List (String × α)
  | [], _ => []
  | (k', v') :: rest, k =>
      if k' = k then deleteKey rest k else (k', v') :: deleteKey rest k

/-! The file src/auth/oauth-model.ts: the OAuth model callbacks.

The model keeps three process-wide JS Maps: clients, authorizationCodes
and accessTokens.  Each embedded operation takes the relevant map and
returns its result together with the updated map. -/

/-- A client record as built by getClient and registerClient. -/
structure Client where
  id : String
  grants : List String
  redirectUris : List String
  deriving Repr, DecidableEq

/-- Registration metadata (the body of POST /register); only the fields the
handlers read are modelled. -/
structure ClientMetadata where
  redirect_uris : Option (List String)
  client_name : Option String
  client_uri : Option String
  deriving Repr, DecidableEq

/-- Embedding of getClient(clientId): unconditionally builds a client record
with a placeholder redirect URI, stores it under clientId, and returns it
(never a NotFound result). -/
def getClient (clients : List (String × Client)) (clientId : String) :
    Client × List (String × Client) :=
  let client : Client :=
    { id := clientId
      grants := ["authorization_code"]
      redirectUris := ["DYNAMIC"] }
  (client, setKey clients clientId client)

/-- Embedding of validateRedirectUri(redirectUri, client): always accepts. -/
def validateRedirectUri (_redirectUri : String) (_client : Client) : Bool :=
  true

/-- Embedding of registerClient(clientId, clientData): stores a client whose
redirect URIs default to the local callback when the metadata carries none
(JS falsy-or). -/
def registerClient (clients : List (String × Client)) (clientId : String)
    (clientData : ClientMetadata) : Client × List (String × Client) :=
  let client : Client :=
    { id := clientId
      grants := ["authorization_code"]
      redirectUris := clientData.redirect_uris.getD ["http://localhost:3000/callback"] }
  (client, setKey clients clientId client)

/-- The code argument handed to saveAuthorizationCode by the OAuth library. -/
structure CodeInput where
  authorizationCode : String
  expiresAt : Nat
  redirectUri : String
  scope : Option String
  codeChallenge : Option String
  codeChallengeMethod : Option String
  deriving Repr, DecidableEq

/-- The record saveAuthorizationCode stores in the authorizationCodes map
(client and user flattened to their ids). -/
structure AuthCode where
  authorizationCode : String
  expiresAt : Nat
  redirectUri : String
  scope : Option String
  clientId : String
  userId : String
  codeChallenge : Option String
  codeChallengeMethod : Option String
  deriving Repr, DecidableEq

/-- Embedding of saveAuthorizationCode(code, client, user). -/
def saveAuthorizationCode (codes : List (String × AuthCode)) (code : CodeInput)
    (client : String) (user : String) : AuthCode × List (String × AuthCode) :=
  let record : AuthCode :=
    { authorizationCode := code.authorizationCode
      expiresAt := code.expiresAt
      redirectUri := code.redirectUri
      scope := code.scope
      clientId := client
      userId := user
      codeChallenge := code.codeChallenge
      codeChallengeMethod := code.codeChallengeMethod }
  (record, setKey codes code.authorizationCode record)

/-- Embedding of getAuthorizationCode(authorizationCode): returns the stored
record or null; no expiry check here (the library's grant logic does that). -/
def getAuthorizationCode (codes : List (String × AuthCode))
    (authorizationCode : String) : Option AuthCode :=
  lookup codes authorizationCode

/-- Embedding of revokeAuthorizationCode(code): deletes the code and returns
true. -/
def revokeAuthorizationCode (codes : List (String × AuthCode)) (code : AuthCode) :
    Bool × List (String × AuthCode) :=
  (true, deleteKey codes code.authorizationCode)

/-- The token argument handed to saveToken by the OAuth library. -/
structure TokenInput where
  accessToken : String
  accessTokenExpiresAt : Option Nat
  scope : Option String
  deriving Repr, DecidableEq

/-- The record saveToken stores in the accessTokens map.  JS objects are
open: getAccessToken later reads token.expiresAt, a property the object
literal in saveToken never sets, so that read yields undefined; the field
expiresAt records exactly that property. -/
structure SavedToken where
  accessToken : String
  accessTokenExpiresAt : Option Nat
  scope : Option String
  clientId : String
  userId : String
  expiresAt : Option Nat
  deriving Repr, DecidableEq

/-- Embedding of saveToken(token, client, user): stores the record with
accessToken, accessTokenExpiresAt, scope, client, user keyed by the token
string; note that no expiresAt property is set. -/
def saveToken (tokens : List (String × SavedToken)) (token : TokenInput)
    (client : String) (user : String) : SavedToken × List (String × SavedToken) :=
  let savedToken : SavedToken :=
    { accessToken := token.accessToken
      accessTokenExpiresAt := token.accessTokenExpiresAt
      scope := token.scope
      clientId := client
      userId := user
      expiresAt := none }
  (savedToken, setKey tokens token.accessToken savedToken)

/-- Embedding of getAccessToken(accessToken): looks the token up; then the
source tests token.expiresAt being truthy and smaller than new Date(), in
which case it deletes the entry and returns null, else it returns the token.
An undefined expiresAt is falsy, so the expiry branch is skipped. -/
def getAccessToken (tokens : List (String × SavedToken)) (now : Nat)
    (accessToken : String) : Option SavedToken × List (String × SavedToken) :=
  match lookup tokens accessToken with
  | none => (none, tokens)
  | some token =>
      match token.expiresAt with
      | some e =>
          if e < now then (none, deleteKey tokens accessToken)
          else (some token, tokens)
      | none => (some token, tokens)

/-! The file src/auth/oauth-wrapper.ts: Bearer Gate and challenge responses. -/

/-- The clientInfo member of an MCP initialize body (only name is read). -/
structure ClientInfo where
  name : Option String
  deriving Repr, DecidableEq

/-- The slice of an Express request that the gate reads: the Authorization
and User-Agent headers, and from the JSON body the JSON-RPC method,
params.clientInfo and id.  bodyId is none when the body carries no id. -/
structure McpRequest where
  authorization : Option String
  userAgent : Option String
  bodyMethod : Option String
  clientInfo : Option ClientInfo
  bodyId : Option Int
  deriving Repr, DecidableEq

/-- Embedding of isVSCodeClient(req): the User-Agent equals node, or an
initialize body declares clientInfo.name equal to Visual Studio Code. -/
def isVSCodeClient (req : McpRequest) : Bool :=
  if req.userAgent = some ("node") then
    true
  else
    match req.bodyMethod, req.clientInfo with
    | some ("initialize"), some ci => ci.name = some ("Visual Studio Code")
    | _, _ => false

/-- One name-value parameter of the WWW-Authenticate header, in the order the
source concatenates them. -/
inductive AuthParam where
  | realm (s : String)
  | error (s : String)
  | errorDescription (s : String)
  | resourceMetadata (url : String)
  | resourceMetadataUrl (url : String)
  deriving Repr, DecidableEq

/-- Tests whether a parameter is one of the two resource-metadata variants. -/
def AuthParam.isMetadata : AuthParam → Bool
  | .resourceMetadata _ => true
  | .resourceMetadataUrl _ => true
  | _ => false

/-- Tests whether a parameter is the non-standard resource_metadata_url
variant. -/
def AuthParam.isMetadataUrl : AuthParam → Bool
  | .resourceMetadataUrl _ => true
  | _ => false

/-- Embedding of createWwwAuthenticate(req, errorDescription), structured as
the list of parameters the source concatenates: the Bearer realm, then (when
a description is given) error and error_description, then exactly one of
resource_metadata_url (VS Code probe) or resource_metadata (RFC 9728). -/
def createWwwAuthenticate (req : McpRequest) (errorDescription : Option String) :
    List AuthParam :=
  let metadataUrl := "http://localhost:3000/.well-known/oauth-protected-resource"
  let base := [AuthParam.realm ("mcp")]
  let withError :=
    match errorDescription with
    | some d => base ++ [AuthParam.error ("invalid_token"), AuthParam.errorDescription d]
    | none => base
  withError ++
    (if isVSCodeClient req then [AuthParam.resourceMetadataUrl metadataUrl]
     else [AuthParam.resourceMetadata metadataUrl])

/-- The JSON-RPC-shaped body of a 401 challenge: jsonrpc 2.0, an error member
with code and message, and an id. -/
structure JsonRpcErrorBody where
  jsonrpc : String
  code : Int
  message : String
  id : Option Int
  deriving Repr, DecidableEq

/-- The id sent back in the envelope: the source computes body id or-else
null, and JS or-else replaces every falsy id (absent, zero) with null. -/
def responseId (bodyId : Option Int) : Option Int :=
  match bodyId with
  | some i => if i = 0 then none else some i
  | none => none

/-- A 401 challenge response as assembled by send401. -/
structure ChallengeResponse where
  status : Nat
  wwwAuthenticate : List AuthParam
  body : JsonRpcErrorBody
  deriving Repr, DecidableEq

/-- Embedding of send401(res, req, errorDescription). -/
def send401 (req : McpRequest) (errorDescription : Option String) :
    ChallengeResponse :=
  { status := 401
    wwwAuthenticate := createWwwAuthenticate req errorDescription
    body :=
      { jsonrpc := "2.0"
        code := -32001
        message := errorDescription.getD ("Authentication required")
        id := responseId req.bodyId } }

/-- Outcome of the authentication middleware: either a 401 challenge was sent
(the request never reaches the session handlers), or next() ran with
user and client attached to the request. -/
inductive AuthOutcome where
  | challenge (r : ChallengeResponse)
  | next (user : String) (client : String)
  deriving Repr, DecidableEq

/-- JS String.prototype.startsWith, as a character-prefix test. -/
def strStartsWith (s p : String) : Bool :=
  List.isPrefixOf p.data s.data

/-- Embedding of authenticateRequest(req, res, next): extract the bearer
token, validate it through the model's getAccessToken, send a 401 challenge
on failure; on success attach user and client and continue. -/
def authenticateRequest (tokens : List (String × SavedToken)) (now : Nat)
    (req : McpRequest) : AuthOutcome × List (String × SavedToken) :=
  match req.authorization with
  | none =>
      (AuthOutcome.challenge (send401 req (some ("Missing Authorization header"))),
       tokens)
  | some authHeader =>
      if ¬ strStartsWith authHeader ("Bearer ") then
        (AuthOutcome.challenge (send401 req (some ("Missing Authorization header"))),
         tokens)
      else
        let token := authHeader.drop 7
        match getAccessToken tokens now token with
        | (none, tokens') =>
            (AuthOutcome.challenge (send401 req (some ("Invalid or expired access token"))),
             tokens')
        | (some accessToken, tokens') =>
            (AuthOutcome.next accessToken.userId accessToken.clientId, tokens')

/-! The file training/final/src/http-server.ts: the session endpoint.

Transport instances are opaque to the session layer (the spec treats them as
black-box duplex channels); they are represented by a Nat identity.  The
transports record is the same association-list map.  The fresh transport a
handler may construct is represented by the parameter fresh. -/

/-- Result of the POST /mcp handler up to the final transport.handleRequest
delegation: which transport handles the request, whether the handler
constructed it freshly, and the session map at the moment of delegation (the
map is only updated later, inside the transport's session-initialized
callback). -/
structure PostMcpResult where
  createdTransport : Bool
  handledBy : Nat
  transports : List (String × Nat)
  deriving Repr, DecidableEq

/-- Embedding of the POST /mcp handler: reuse the transport bound to the
session-id header when it names a known session, otherwise construct a new
transport; in either case delegate the request to that transport.  There is
no 400 path in this handler. -/
def postMcp (transports : List (String × Nat)) (fresh : Nat)
    (sessionId : Option String) : PostMcpResult :=
  match sessionId with
  | some sid =>
      match lookup transports sid with
      | some transport =>
          { createdTransport := false, handledBy := transport, transports := transports }
      | none =>
          { createdTransport := true, handledBy := fresh, transports := transports }
  | none =>
      { createdTransport := true, handledBy := fresh, transports := transports }

/-- Embedding of the session-initialized callback: store the freshly
constructed transport under the id the transport handshake assigned. -/
def onSessionInit (transports : List (String × Nat)) (newSessionId : String)
    (transport : Nat) : List (String × Nat) :=
  setKey transports newSessionId transport

/-- Embedding of the transport onclose hook: remove the binding for the
transport's session id. -/
def onTransportClose (transports : List (String × Nat)) (sessionId : Option String) :
    List (String × Nat) :=
  match sessionId with
  | some sid => deleteKey transports sid
  | none => transports

/-- Outcome of handleExistingSession (GET and DELETE on the /mcp path). -/
inductive SessionOutcome where
  | status400 (body : String)
  | delegated (transport : Nat)
  deriving Repr, DecidableEq

/-- Embedding of handleExistingSession: when the session id is missing or
unknown respond 400, else delegate to the bound transport. -/
def handleExistingSession (transports : List (String × Nat))
    (sessionId : Option String) : SessionOutcome :=
  match sessionId with
  | none => .status400 ("Invalid or missing session ID")
  | some sid =>
      match lookup transports sid with
      | none => .status400 ("Invalid or missing session ID")
      | some transport => .delegated transport

/-! The file src/auth/oauth-handlers.ts: the POST /authorize decision and
POST /register handlers. -/

/-- The form body of the POST /authorize decision request (all fields may be
absent). -/
structure AuthorizeBody where
  authorize : Option String
  client_id : Option String
  redirect_uri : Option String
  code_challenge : Option String
  code_challenge_method : Option String
  state : Option String
  deriving Repr, DecidableEq

/-- JS template-literal interpolation of a possibly-undefined value: an
undefined value prints as the string undefined. -/
def jsStr (s : Option String) : String :=
  s.getD ("undefined")

/-- Outcome of the POST /authorize handler: a redirect sent directly by the
handler, or control handed to the OAuth library (the approval path). -/
inductive AuthorizeOutcome where
  | redirect (url : String)
  | oauthFlow
  deriving Repr, DecidableEq

/-- Embedding of the POST branch of authorize(req, res): when the body's
authorize field is not the string true, redirect to the redirect URI with
error access_denied and the echoed state, leaving the code store untouched;
otherwise run the OAuth library's authorization flow, abstracted here as the
continuation approve (it is the only part that may mint and store a code). -/
def authorizePost (codes : List (String × AuthCode)) (body : AuthorizeBody)
    (approve : List (String × AuthCode) → AuthorizeOutcome × List (String × AuthCode)) :
    AuthorizeOutcome × List (String × AuthCode) :=
  if body.authorize ≠ some ("true") then
    (.redirect (jsStr body.redirect_uri ++ "?error=access_denied&state=" ++
      jsStr body.state), codes)
  else
    approve codes

/-- The 201 body of POST /register. -/
structure RegistrationResponse where
  client_id : String
  client_id_issued_at : Nat
  redirect_uris : List String
  grant_types : List String
  response_types : List String
  token_endpoint_auth_method : String
  scope : String
  client_name : Option String
  client_uri : Option String
  deriving Repr, DecidableEq

/-- Outcome of POST /register: 201 with the registration response, or the
catch block's 400 invalid_client_metadata error. -/
inductive RegisterResult where
  | created (r : RegistrationResponse)
  | invalidClientMetadata
  deriving Repr, DecidableEq

/-- Embedding of register(req, res).  A body of none models a request whose
body the parsers left undefined: the property read on it throws and the
catch block answers 400 invalid_client_metadata.  uuid stands for the
external crypto.randomUUID(), nowSeconds for the current epoch seconds.
JS and-spreading drops falsy (empty) client_name and client_uri values. -/
def register (clients : List (String × Client)) (body : Option ClientMetadata)
    (uuid : String) (nowSeconds : Nat) : RegisterResult × List (String × Client) :=
  match body with
  | none => (.invalidClientMetadata, clients)
  | some clientMetadata =>
      let clientId := "mcp_" ++ uuid
      let reg := registerClient clients clientId clientMetadata
      (.created
        { client_id := clientId
          client_id_issued_at := nowSeconds
          redirect_uris := clientMetadata.redirect_uris.getD
            ["http://localhost:3000/callback"]
          grant_types := ["authorization_code"]
          response_types := ["code"]
          token_endpoint_auth_method := "none"
          scope := ""
          client_name := Option.filter (fun s => !s.isEmpty) clientMetadata.client_name
          client_uri := Option.filter (fun s => !s.isEmpty) clientMetadata.client_uri },
       reg.2)

/-! PKCE verification and the authorization-code grant.

The grant logic behind POST /token lives in the external OAuth library
dependency; only the model callbacks above are repository code.  The missing
pieces are modelled from the spec (sections 4.2 and 4.4). -/

/-- Bytes of a string, one Nat per character code. -/
def strBytes (s : String) : List Nat :=
  s.data.map Char.toNat

/-- The base64url alphabet (RFC 4648 section 5). -/
def b64urlAlphabet : List Char :=
  "ABCDEFGHIJKLMNOPQRSTUVWXYZabcdefghijklmnopqrstuvwxyz0123456789-_".toList

/-- Character for one 6-bit group. -/
def b64Char (n : Nat) : Char :=
  b64urlAlphabet.getD n 'A'

/-- Base64url encoding without padding: three input bytes to four output
characters, with truncated groups at the end. -/
def base64urlChars : List Nat → List Char
  | [] => []
  | [b1] => [b64Char (b1 / 4), b64Char (b1 % 4 * 16)]
  | [b1, b2] =>
      [b64Char (b1 / 4), b64Char (b1 % 4 * 16 + b2 / 16), b64Char (b2 % 16 * 4)]
  | b1 :: b2 :: b3 :: rest =>
      b64Char (b1 / 4) :: b64Char (b1 % 4 * 16 + b2 / 16) ::
        b64Char (b2 % 16 * 4 + b3 / 64) :: b64Char (b3 % 64) :: base64urlChars rest

/-- Base64url-no-padding encoding of a byte list, as a string. -/
def base64urlNoPad (bytes : List Nat) : String :=
  String.mk (base64urlChars bytes)

/-- Modelled from the spec: the constant-time comparison used by PKCE
verification (timingSafeEqual style): XOR corresponding bytes, accumulate
with OR, and compare the accumulator and the lengths at the end. -/
def ctEq (a b : List Nat) : Bool :=
  a.length == b.length &&
    (List.zipWith (fun x y => x ^^^ y) a b).foldl (fun acc d => acc ||| d) 0 == 0

/-- Modelled from the spec: PKCE verification, performed inside the external
OAuth library and absent from the repository sources (spec section 4.2).
Only the S256 method is accepted: compute the base64url-no-padding SHA-256
digest of the verifier and compare constant-time against the stored
challenge; any other method, or a missing verifier (or challenge), fails
closed.  The SHA-256 primitive itself is external; it enters as the
parameter sha256. -/
def pkceVerify (sha256 : List Nat → List Nat) (method : Option String)
    (challenge : Option String) (verifier : Option String) : Bool :=
  if method ≠ some ("S256") then false
  else
    match challenge, verifier with
    | some c, some v =>
        ctEq (strBytes c) (strBytes (base64urlNoPad (sha256 (strBytes v))))
    | _, _ => false

/-- The two stores the token exchange touches. -/
structure OAuthState where
  codes : List (String × AuthCode)
  tokens : List (String × SavedToken)
  deriving Repr, DecidableEq

/-- The parameters of a POST /token exchange request with the
authorization_code grant type. -/
structure ExchangeRequest where
  code : String
  redirect_uri : String
  code_verifier : Option String
  client_id : String
  deriving Repr, DecidableEq

/-- Response of the token handler: 200 with the token JSON, or the catch
block's 400 invalid_grant error. -/
inductive TokenResponse where
  | ok (access_token : String) (token_type : String) (expires_in : Nat) (scope : String)
  | invalidGrant
  deriving Repr, DecidableEq

/-- Modelled from the spec: the authorization-code grant executed by the
external OAuth library behind POST /token (spec section 4.4), glued to the
repository's handler token in src/auth/oauth-handlers.ts, whose catch block
maps every grant failure to HTTP 400 invalid_grant.  The steps call the
repository's own model callbacks getAuthorizationCode,
revokeAuthorizationCode and saveToken; newToken stands for the random value
minted by generateAccessToken and now for the wall clock.  The access-token
lifetime is the configured 3600 seconds (src/auth/oauth-server.ts). -/
def tokenExchange (sha256 : List Nat → List Nat) (st : OAuthState) (now : Nat)
    (newToken : String) (req : ExchangeRequest) : TokenResponse × OAuthState :=
  match getAuthorizationCode st.codes req.code with
  | none => (.invalidGrant, st)
  | some code =>
      if code.expiresAt < now then (.invalidGrant, st)
      else if code.redirectUri ≠ req.redirect_uri then (.invalidGrant, st)
      else if ¬ pkceVerify sha256 code.codeChallengeMethod code.codeChallenge
          req.code_verifier then (.invalidGrant, st)
      else
        let codes' := (revokeAuthorizationCode st.codes code).2
        let tokenInput : TokenInput :=
          { accessToken := newToken
            accessTokenExpiresAt := some (now + 3600 * 1000)
            scope := code.scope }
        let saved := saveToken st.tokens tokenInput code.clientId code.userId
        (.ok newToken ("Bearer") 3600 ((saved.1).scope.getD ("")),
         { codes := codes', tokens := saved.2 })

/-- Codes are keyed by their own authorizationCode field, the invariant the
callback saveAuthorizationCode maintains on the authorizationCodes map. -/
def WfCodeStore (codes : List (String × AuthCode)) : Prop :=
  ∀ k c, lookup codes k = some c → c.authorizationCode = k

/-! Concrete inputs used by the witness theorems. -/

/-- A token input with its expiry at millisecond 1000. -/
def c1Token : TokenInput :=
  { accessToken := "tok", accessTokenExpiresAt := some 1000, scope := none }

/-- A decision body in which the user denied the authorization. -/
def c7Body : AuthorizeBody :=
  { authorize := some ("false")
    client_id := some ("c1")
    redirect_uri := some ("http://localhost:3000/callback")
    code_challenge := some ("ch")
    code_challenge_method := some ("S256")
    state := some ("xyz") }

/-- An authorization code input bound to a PKCE challenge, expiring at
millisecond 10000. -/
def c2CodeInput : CodeInput :=
  { authorizationCode := "code1"
    expiresAt := 10000
    redirectUri := "http://localhost:3000/callback"
    scope := none
    codeChallenge := some (base64urlNoPad [9])
    codeChallengeMethod := some ("S256") }

/-- The OAuth state holding exactly that stored code. -/
def c2State : OAuthState :=
  { codes := (saveAuthorizationCode [] c2CodeInput "client1" "demo-user").2
    tokens := [] }

/-- The matching exchange request. -/
def c2Request : ExchangeRequest :=
  { code := "code1"
    redirect_uri := "http://localhost:3000/callback"
    code_verifier := some ("ver")
    client_id := "client1" }

/-- A concrete stand-in for the external digest. -/
def c2Sha : List Nat → List Nat :=
  fun _ => [9]

/-- A request detected as VS Code by the User-Agent probe. -/
def c4ReqA : McpRequest :=
  { authorization := none
    userAgent := some ("node")
    bodyMethod := none
    clientInfo := none
    bodyId := some 1 }

/-- The same probe fields as c4ReqA, but a different body id. -/
def c4ReqB : McpRequest :=
  { authorization := none
    userAgent := some ("node")
    bodyMethod := none
    clientInfo := none
    bodyId := some 2 }

/-- A request with no Authorization header at all. -/
def c6ReqNoAuth : McpRequest :=
  { authorization := none
    userAgent := some ("curl/8")
    bodyMethod := some ("tools/call")
    clientInfo := none
    bodyId := some 3 }

/-- A request bearing a token that is absent from the store. -/
def c6ReqUnknownToken : McpRequest :=
  { authorization := some ("Bearer deadbeef")
    userAgent := some ("curl/8")
    bodyMethod := some ("tools/call")
    clientInfo := none
    bodyId := some 3 }

/-! Map lemmas. -/

theorem lookup_setKey_self {α : Type} (m : List (String × α)) (k : String) (v : α) :
    lookup (setKey m k v) k = some v := by
  induction m with
  | nil => simp [setKey, lookup]
  | cons hd tl ih =>
      obtain ⟨k', v'⟩ := hd
      by_cases h : k' = k <;> simp [setKey, lookup, h, ih]

theorem lookup_deleteKey_self {α : Type} (m : List (String × α)) (k : String) :
    lookup (deleteKey m k) k = none := by
  induction m with
  | nil => simp [deleteKey, lookup]
  | cons hd tl ih =>
      obtain ⟨k', v'⟩ := hd
      by_cases h : k' = k <;> simp [deleteKey, lookup, h, ih]

theorem lookup_setKey {α : Type} (m : List (String × α)) (k k' : String) (v : α) :
    lookup (setKey m k v) k' = if k = k' then some v else lookup m k' := by
  induction m with
  | nil => simp [setKey, lookup]
  | cons hd tl ih =>
      obtain ⟨ka, va⟩ := hd
      by_cases h1 : ka = k
      · subst h1
        by_cases h2 : ka = k' <;> simp [setKey, lookup, h2]
      · by_cases h2 : ka = k'
        · subst h2
          have hk : ¬ k = ka := fun h => h1 h.symm
          simp [setKey, lookup, h1, hk]
        · simp [setKey, lookup, h1, h2, ih]

theorem wfCodeStore_nil : WfCodeStore [] := by
  intro k c h
  simp [lookup] at h

theorem wfCodeStore_setKey (codes : List (String × AuthCode)) (c : AuthCode)
    (hwf : WfCodeStore codes) : WfCodeStore (setKey codes c.authorizationCode c) := by
  intro k x h
  rw [lookup_setKey] at h
  split at h
  · next heq =>
      cases h
      exact heq
  · exact hwf k x h

theorem wfCodeStore_save (codes : List (String × AuthCode)) (code : CodeInput)
    (client user : String) (hwf : WfCodeStore codes) :
    WfCodeStore (saveAuthorizationCode codes code client user).2 := by
  intro k x h
  have hs := wfCodeStore_setKey codes
    { authorizationCode := code.authorizationCode
      expiresAt := code.expiresAt
      redirectUri := code.redirectUri
      scope := code.scope
      clientId := client
      userId := user
      codeChallenge := code.codeChallenge
      codeChallengeMethod := code.codeChallengeMethod } hwf
  exact hs k x h

/-! Arithmetic support for the constant-time comparison. -/

theorem or_eq_zero_iff (a b : Nat) : a ||| b = 0 ↔ a = 0 ∧ b = 0 := by
  constructor
  · intro h
    refine ⟨?_, ?_⟩ <;>
    · apply Nat.eq_of_testBit_eq
      intro i
      have ht := congrArg (fun n => Nat.testBit n i) h
      simp only [Nat.testBit_or, Nat.zero_testBit, Bool.or_eq_false_iff] at ht
      simp [ht.1, ht.2]
  · rintro ⟨rfl, rfl⟩
    rfl

theorem foldl_or_eq_zero (l : List Nat) (acc : Nat) :
    l.foldl (fun acc d => acc ||| d) acc = 0 ↔ acc = 0 ∧ ∀ x ∈ l, x = 0 := by
  induction l generalizing acc with
  | nil => simp
  | cons hd tl ih =>
      simp only [List.foldl_cons, ih, or_eq_zero_iff, List.mem_cons]
      constructor
      · rintro ⟨⟨h1, h2⟩, h3⟩
        exact ⟨h1, fun x hx => hx.elim (fun hx => hx ▸ h2) (h3 x)⟩
      · rintro ⟨h1, h2⟩
        exact ⟨⟨h1, h2 hd (Or.inl rfl)⟩, fun x hx => h2 x (Or.inr hx)⟩

theorem eq_of_zipWith_xor_zero : ∀ (a b : List Nat), a.length = b.length →
    (∀ x ∈ List.zipWith (fun x y => x ^^^ y) a b, x = 0) → a = b
  | [], [], _, _ => rfl
  | [], _ :: _, hlen, _ => by simp at hlen
  | _ :: _, [], hlen, _ => by simp at hlen
  | x :: xs, y :: ys, hlen, h => by
      have hx : x = y := Nat.xor_eq_zero.mp (h _ (by simp))
      have hrest := eq_of_zipWith_xor_zero xs ys (by simpa using hlen)
        (fun z hz => h z (by simp [hz]))
      rw [hx, hrest]

theorem zipWith_xor_self_zero (a : List Nat) :
    ∀ x ∈ List.zipWith (fun x y => x ^^^ y) a a, x = 0 := by
  induction a with
  | nil => simp
  | cons hd tl ih =>
      intro x hx
      simp only [List.zipWith_cons_cons, List.mem_cons] at hx
      cases hx with
      | inl h => simp [h]
      | inr h => exact ih x h

theorem ctEq_eq_true_iff (a b : List Nat) : ctEq a b = true ↔ a = b := by
  unfold ctEq
  rw [Bool.and_eq_true, beq_iff_eq, beq_iff_eq, foldl_or_eq_zero]
  constructor
  · rintro ⟨hlen, _, hall⟩
    exact eq_of_zipWith_xor_zero a b hlen hall
  · rintro rfl
    exact ⟨rfl, rfl, zipWith_xor_self_zero a⟩

theorem strBytes_inj {s t : String} (h : strBytes s = strBytes t) : s = t := by
  have hinj : Function.Injective Char.toNat := by
    intro a b hab
    have hc := congrArg Char.ofNat hab
    simpa using hc
  have hdata : s.data = t.data := List.map_injective_iff.mpr hinj h
  cases s
  cases t
  exact congrArg String.mk hdata

/-! Claim theorems. -/

/-- Claim C1: For every access token stored by saveToken, a getAccessToken
lookup performed at a time strictly after the token's expiry timestamp
deletes the token from the store and returns NotFound (null).  The code
violates this: saveToken stores the expiry under accessTokenExpiresAt, while
getAccessToken tests the never-set expiresAt property, so the lookup keeps
returning the token, unexpired and undeleted, at every later time.  This
theorem evaluates the code at the failing configuration: the expiry lies
strictly in the past, yet the lookup answers with the token and leaves the
store unchanged. -/
theorem getAccessToken_ignores_expiry (tokens : List (String × SavedToken))
    (token : TokenInput) (client user : String) (now e : Nat)
    (_hexp : token.accessTokenExpiresAt = some e) (_hpast : e < now) :
    getAccessToken (saveToken tokens token client user).2 now token.accessToken =
      (some (saveToken tokens token client user).1,
       (saveToken tokens token client user).2) := by
  unfold saveToken getAccessToken
  simp [lookup_setKey_self]

/-- Witness for C1 at a concrete input: a token saved with expiry 1000 is
still returned, and not purged, when looked up at time 2000. -/
theorem getAccessToken_ignores_expiry_witness :
    (1000 : Nat) < 2000 ∧
    getAccessToken (saveToken [] c1Token "c" "u").2 2000 "tok" =
      (some (saveToken [] c1Token "c" "u").1, (saveToken [] c1Token "c" "u").2) :=
  ⟨by decide,
   getAccessToken_ignores_expiry [] c1Token "c" "u" 2000 1000 rfl (by decide)⟩

/-- Claim C3, counterexample: the claim states that a POST /mcp request
carrying an unknown session id is rejected with HTTP 400 and that no new
transport is created.  At the concrete input below (empty session map,
unknown session id), the POST handler instead constructs a fresh transport
and delegates the request to it; it has no 400 path at all. -/
theorem postMcp_unknown_session_creates_transport :
    postMcp [] 7 (some ("unknown-session")) =
      { createdTransport := true, handledBy := 7, transports := [] } := by
  rfl

/-- Claim C3, amended: for GET and DELETE on the /mcp path, a request with
an unknown or missing session id is rejected with HTTP 400 and no transport
is created; a POST with an unknown or missing session id is not rejected by
the server's own handler: it constructs a fresh transport and delegates the
request to it (leaving the session map unchanged at that point). -/
theorem sessionEndpoint_unknown_session (transports : List (String × Nat))
    (fresh : Nat) (sessionId : Option String)
    (hunknown : ∀ s, sessionId = some s → lookup transports s = none) :
    handleExistingSession transports sessionId =
      .status400 ("Invalid or missing session ID") ∧
    postMcp transports fresh sessionId =
      { createdTransport := true, handledBy := fresh, transports := transports } := by
  cases sessionId with
  | none => exact ⟨rfl, rfl⟩
  | some s =>
      have h := hunknown s rfl
      constructor
      · simp [handleExistingSession, h]
      · simp [postMcp, h]

/-- Witness for the amended C3 at a concrete input: session id b is unknown
in a map binding only a. -/
theorem sessionEndpoint_unknown_session_witness :
    handleExistingSession [("a", 1)] (some ("b")) =
      .status400 ("Invalid or missing session ID") ∧
    postMcp [("a", 1)] 5 (some ("b")) =
      { createdTransport := true, handledBy := 5, transports := [("a", 1)] } :=
  sessionEndpoint_unknown_session [("a", 1)] 5 (some ("b"))
    (fun s hs => by cases hs; decide)

/-- Claim C7: For every POST /authorize decision request in which the user
does not approve (the approve flag is not the string true), the server
responds with a redirect to the redirect URI carrying error access_denied
and the echoed state, and no authorization code is created or stored: the
code store is returned untouched, whatever the approval continuation would
have done. -/
theorem authorizePost_deny_no_code (codes : List (String × AuthCode))
    (body : AuthorizeBody)
    (approve : List (String × AuthCode) → AuthorizeOutcome × List (String × AuthCode))
    (r s : String)
    (hdeny : body.authorize ≠ some ("true"))
    (hr : body.redirect_uri = some r) (hs : body.state = some s) :
    authorizePost codes body approve =
      (.redirect (r ++ "?error=access_denied&state=" ++ s), codes) := by
  unfold authorizePost
  rw [if_pos hdeny, hr, hs]
  rfl

/-- Witness for C7 at a concrete input: authorize flag false, callback
redirect URI, state xyz. -/
theorem authorizePost_deny_no_code_witness :
    authorizePost [] c7Body (fun c => (.oauthFlow, c)) =
      (.redirect ("http://localhost:3000/callback?error=access_denied&state=xyz"), []) :=
  authorizePost_deny_no_code [] c7Body (fun c => (.oauthFlow, c))
    "http://localhost:3000/callback" "xyz" (by decide) rfl rfl

/-- Claim C9: For every POST /register request, a well-formed registration
returns HTTP 201 with a body containing the client id, its issue time, the
redirect URIs, grant type authorization_code, response type code and token
endpoint auth method none; a malformed registration body returns HTTP 400
with error invalid_client_metadata, leaving the client store unchanged. -/
theorem register_response (clients : List (String × Client))
    (meta : ClientMetadata) (uuid : String) (nowSeconds : Nat) :
    (register clients (some meta) uuid nowSeconds).1 =
      .created
        { client_id := "mcp_" ++ uuid
          client_id_issued_at := nowSeconds
          redirect_uris := meta.redirect_uris.getD ["http://localhost:3000/callback"]
          grant_types := ["authorization_code"]
          response_types := ["code"]
          token_endpoint_auth_method := "none"
          scope := ""
          client_name := Option.filter (fun s => !s.isEmpty) meta.client_name
          client_uri := Option.filter (fun s => !s.isEmpty) meta.client_uri } ∧
    register clients none uuid nowSeconds = (.invalidClientMetadata, clients) :=
  ⟨rfl, rfl⟩

/-- Claim C10: For every client id presented to getClient, including ids
never registered, the model returns a client record with grants
authorization_code (auto-creating and storing it), and never a NotFound:
the operation is total and the returned record is bound in the store. -/
theorem getClient_never_notfound (clients : List (String × Client))
    (clientId : String) :
    (getClient clients clientId).1 =
      { id := clientId, grants := ["authorization_code"],
        redirectUris := ["DYNAMIC"] } ∧
    lookup (getClient clients clientId).2 clientId =
      some (getClient clients clientId).1 := by
  refine ⟨rfl, ?_⟩
  unfold getClient
  exact lookup_setKey_self clients clientId _

/-- Claim C4: Every 401 challenge's WWW-Authenticate header contains exactly
one of the parameters resource_metadata or resource_metadata_url, never both
and never neither, and the choice is a function of the request's User-Agent
header and the declared client name of an initialize body: the url variant
exactly for VS-Code-detected clients. -/
theorem wwwAuthenticate_one_metadata_param (req req' : McpRequest)
    (errorDescription : Option String) :
    ((createWwwAuthenticate req errorDescription).countP AuthParam.isMetadata = 1) ∧
    ((createWwwAuthenticate req errorDescription).countP AuthParam.isMetadataUrl =
      if isVSCodeClient req then 1 else 0) ∧
    (req.userAgent = req'.userAgent → req.bodyMethod = req'.bodyMethod →
      req.clientInfo = req'.clientInfo →
      isVSCodeClient req = isVSCodeClient req') := by
  refine ⟨?_, ?_, ?_⟩
  · cases errorDescription <;> by_cases hv : isVSCodeClient req <;>
      simp [createWwwAuthenticate, hv, List.countP_append, List.countP_cons,
        AuthParam.isMetadata]
  · cases errorDescription <;> by_cases hv : isVSCodeClient req <;>
      simp [createWwwAuthenticate, hv, List.countP_append, List.countP_cons,
        AuthParam.isMetadataUrl]
  · intro h1 h2 h3
    unfold isVSCodeClient
    rw [h1, h2, h3]

/-- Witness for C4 at concrete inputs: a VS Code request gets exactly one
metadata parameter (the url variant), and two requests agreeing on the probe
fields get the same choice. -/
theorem wwwAuthenticate_one_metadata_param_witness :
    ((createWwwAuthenticate c4ReqA none).countP AuthParam.isMetadata = 1) ∧
    ((createWwwAuthenticate c4ReqA none).countP AuthParam.isMetadataUrl =
      if isVSCodeClient c4ReqA then 1 else 0) ∧
    isVSCodeClient c4ReqA = isVSCodeClient c4ReqB :=
  ⟨(wwwAuthenticate_one_metadata_param c4ReqA c4ReqA none).1,
   (wwwAuthenticate_one_metadata_param c4ReqA c4ReqA none).2.1,
   (wwwAuthenticate_one_metadata_param c4ReqA c4ReqB none).2.2 rfl rfl rfl⟩

/-- Claim C5: PKCE verification accepts exactly the pairs where the stored
challenge equals the base64url-no-padding SHA-256 digest of the presented
verifier under method S256 (constant-time comparison being equality); any
other challenge method, or a missing verifier, is rejected. -/
theorem pkceVerify_exact (sha256 : List Nat → List Nat) (c v : String)
    (m cc vv : Option String) :
    (pkceVerify sha256 (some ("S256")) (some c) (some v) = true ↔
      c = base64urlNoPad (sha256 (strBytes v))) ∧
    (m ≠ some ("S256") → pkceVerify sha256 m cc vv = false) ∧
    (pkceVerify sha256 m cc none = false) := by
  refine ⟨?_, ?_, ?_⟩
  · unfold pkceVerify
    rw [if_neg (by simp)]
    show ctEq (strBytes c) (strBytes (base64urlNoPad (sha256 (strBytes v)))) = true ↔ _
    rw [ctEq_eq_true_iff]
    constructor
    · intro hb
      exact strBytes_inj hb
    · intro he
      rw [he]
  · intro hm
    unfold pkceVerify
    rw [if_pos hm]
  · unfold pkceVerify
    by_cases hm : m = some ("S256")
    · rw [if_neg (by simp [hm])]
      cases cc <;> rfl
    · rw [if_pos hm]

/-- Witness for C5 at concrete inputs: a matching digest is accepted, a
non-S256 method is rejected. -/
theorem pkceVerify_exact_witness :
    pkceVerify c2Sha (some ("S256")) (some (base64urlNoPad [9])) (some ("v")) = true ∧
    pkceVerify c2Sha (some ("plain")) (some ("x")) (some ("v")) = false :=
  ⟨(pkceVerify_exact c2Sha (base64urlNoPad [9]) "v" none none none).1.mpr rfl,
   (pkceVerify_exact c2Sha "x" "v" (some ("plain")) (some ("x"))
     (some ("v"))).2.1 (by decide)⟩

/-- Claim C6: For every request to the session-bound endpoint whose
Authorization header is absent, malformed, or carries a token the store does
not validate, the gate answers with the 401 JSON-RPC-shaped challenge (code
-32001, id from the body or null) and the request never reaches the session
handlers; on success the resolved user and client are attached and
processing continues. -/
theorem bearerGate_behavior (tokens : List (String × SavedToken)) (now : Nat)
    (req : McpRequest) :
    (∀ d, (send401 req d).status = 401 ∧
      (send401 req d).body =
        { jsonrpc := "2.0", code := -32001,
          message := d.getD ("Authentication required"),
          id := responseId req.bodyId }) ∧
    (req.authorization = none →
      authenticateRequest tokens now req =
        (.challenge (send401 req (some ("Missing Authorization header"))), tokens)) ∧
    (∀ h, req.authorization = some h → ¬ strStartsWith h ("Bearer ") →
      authenticateRequest tokens now req =
        (.challenge (send401 req (some ("Missing Authorization header"))), tokens)) ∧
    (∀ h, req.authorization = some h → strStartsWith h ("Bearer ") →
      (getAccessToken tokens now (h.drop 7)).1 = none →
      authenticateRequest tokens now req =
        (.challenge (send401 req (some ("Invalid or expired access token"))),
         (getAccessToken tokens now (h.drop 7)).2)) ∧
    (∀ h t, req.authorization = some h → strStartsWith h ("Bearer ") →
      (getAccessToken tokens now (h.drop 7)).1 = some t →
      authenticateRequest tokens now req =
        (.next t.userId t.clientId, (getAccessToken tokens now (h.drop 7)).2)) := by
  refine ⟨?_, ?_, ?_, ?_, ?_⟩
  · intro d
    exact ⟨rfl, rfl⟩
  · intro ha
    simp only [authenticateRequest, ha]
  · intro h ha hbad
    simp only [authenticateRequest, ha]
    rw [if_pos hbad]
  · intro h ha hgood hnone
    have hget : getAccessToken tokens now (h.drop 7) =
        (none, (getAccessToken tokens now (h.drop 7)).2) := by
      rw [← hnone]
    simp only [authenticateRequest, ha]
    rw [if_neg (not_not_intro hgood), hget]
  · intro h t ha hgood hsome
    have hget : getAccessToken tokens now (h.drop 7) =
        (some t, (getAccessToken tokens now (h.drop 7)).2) := by
      rw [← hsome]
    simp only [authenticateRequest, ha]
    rw [if_neg (not_not_intro hgood), hget]

/-- Witness for C6 at concrete inputs: an absent header and an unknown
bearer token each draw the 401 challenge on an empty token store. -/
theorem bearerGate_behavior_witness :
    authenticateRequest [] 0 c6ReqNoAuth =
      (.challenge (send401 c6ReqNoAuth (some ("Missing Authorization header"))), []) ∧
    authenticateRequest [] 0 c6ReqUnknownToken =
      (.challenge (send401 c6ReqUnknownToken
        (some ("Invalid or expired access token"))), []) :=
  ⟨(bearerGate_behavior [] 0 c6ReqNoAuth).2.1 rfl,
   (bearerGate_behavior [] 0 c6ReqUnknownToken).2.2.2.1 ("Bearer deadbeef") rfl
     (by decide) (by decide)⟩

theorem tokenExchange_absent (sha256 : List Nat → List Nat) (st : OAuthState)
    (now : Nat) (tok : String) (req : ExchangeRequest)
    (h : getAuthorizationCode st.codes req.code = none) :
    tokenExchange sha256 st now tok req = (.invalidGrant, st) := by
  simp only [tokenExchange, h]

/-- Claim C2: For every authorization code, the token exchange fails with
400 invalid_grant whenever the code is absent from the store or has
expired; and once an exchange succeeds, the code is deleted from the store,
so it never validates again: any further exchange of the same code yields
invalid_grant and changes nothing. -/
theorem tokenExchange_single_use (sha256 : List Nat → List Nat) (st : OAuthState)
    (now now2 : Nat) (tok tok2 : String) (req : ExchangeRequest)
    (hwf : WfCodeStore st.codes) :
    (getAuthorizationCode st.codes req.code = none →
      tokenExchange sha256 st now tok req = (.invalidGrant, st)) ∧
    (∀ code, getAuthorizationCode st.codes req.code = some code →
      code.expiresAt < now →
      tokenExchange sha256 st now tok req = (.invalidGrant, st)) ∧
    (∀ a b e s st', tokenExchange sha256 st now tok req = (.ok a b e s, st') →
      getAuthorizationCode st'.codes req.code = none ∧
      tokenExchange sha256 st' now2 tok2 req = (.invalidGrant, st')) := by
  refine ⟨?_, ?_, ?_⟩
  · intro h
    exact tokenExchange_absent sha256 st now tok req h
  · intro code hc hexp
    simp only [tokenExchange, hc, if_pos hexp]
  · intro a b e s st' hsucc
    cases hc : getAuthorizationCode st.codes req.code with
    | none =>
        simp only [tokenExchange, hc] at hsucc
        simp at hsucc
    | some code =>
        have hkey : code.authorizationCode = req.code := hwf req.code code hc
        simp only [tokenExchange, hc] at hsucc
        split at hsucc
        · simp at hsucc
        · split at hsucc
          · simp at hsucc
          · split at hsucc
            · simp at hsucc
            · rw [Prod.mk.injEq] at hsucc
              obtain ⟨hresp, hst⟩ := hsucc
              subst hst
              have hnone : getAuthorizationCode
                  (revokeAuthorizationCode st.codes code).2 req.code = none := by
                show lookup (deleteKey st.codes code.authorizationCode) req.code = none
                rw [hkey]
                exact lookup_deleteKey_self st.codes req.code
              exact ⟨hnone, tokenExchange_absent sha256 _ now2 tok2 req hnone⟩

/-- Witness for C2 at concrete inputs: the stored code exchanges once
successfully; afterwards it is gone from the store and a second exchange of
the same code fails with invalid_grant. -/
theorem tokenExchange_single_use_witness :
    getAuthorizationCode
      (tokenExchange c2Sha c2State 5000 "at1" c2Request).2.codes "code1" = none ∧
    tokenExchange c2Sha (tokenExchange c2Sha c2State 5000 "at1" c2Request).2 6000
      "at2" c2Request =
      (.invalidGrant, (tokenExchange c2Sha c2State 5000 "at1" c2Request).2) := by
  have happ := (tokenExchange_single_use c2Sha c2State 5000 6000 "at1" "at2"
    c2Request (wfCodeStore_save [] c2CodeInput "client1" "demo-user" wfCodeStore_nil)).2.2
  have hrun : tokenExchange c2Sha c2State 5000 "at1" c2Request =
      (.ok ("at1") ("Bearer") 3600 "",
       (tokenExchange c2Sha c2State 5000 "at1" c2Request).2) := by
    rfl
  exact happ "at1" "Bearer" 3600 ""
    (tokenExchange c2Sha c2State 5000 "at1" c2Request).2 hrun

end McpTraining
